import Mathlib

/-!
gdextension-dbus: the signature-driven encoder of `src/dbus.cpp`.

A shallow embedding of `append_arg`, `DBus::connect` and
`DBus::send_with_reply_and_block`.

* A D-Bus signature is kept as the sequence of complete types libdbus parses
  it into (`TypeDescriptor`); a `DBusSignatureIter` is the list of complete
  types from the current position to the end of its level.
* The message under construction is observed through the sequence of libdbus
  builder calls made on it (`Call`), together with the Godot warnings pushed
  on the way. `print` calls are not recorded.
* Godot's conversions between `Variant` types live in the engine, not in this
  repository; they are a parameter (`GodotCasts`), used only when the dynamic
  type of the value differs from the requested one.
* The answers of libdbus and of the bus (whether a connection is granted,
  whether a signature is valid, what reply a call gets) are a parameter too
  (`LibDBus`).
* Memory is not modelled: strings and handles live as long as they are used.
  The one place where the source reads a signature past its terminator (a
  step of the iterator taken at the end, then a further argument) has no
  defined outcome, and the model gives `none` there.
-/

namespace DBusExt

/-! ## D-Bus type codes (dbus-protocol.h) -/

@[simp] def DBUS_TYPE_INVALID : Nat := 0
@[simp] def DBUS_TYPE_BYTE : Nat := 121
@[simp] def DBUS_TYPE_BOOLEAN : Nat := 98
@[simp] def DBUS_TYPE_INT16 : Nat := 110
@[simp] def DBUS_TYPE_UINT16 : Nat := 113
@[simp] def DBUS_TYPE_INT32 : Nat := 105
@[simp] def DBUS_TYPE_UINT32 : Nat := 117
@[simp] def DBUS_TYPE_INT64 : Nat := 120
@[simp] def DBUS_TYPE_UINT64 : Nat := 116
@[simp] def DBUS_TYPE_DOUBLE : Nat := 100
@[simp] def DBUS_TYPE_STRING : Nat := 115
@[simp] def DBUS_TYPE_OBJECT_PATH : Nat := 111
@[simp] def DBUS_TYPE_SIGNATURE : Nat := 103
@[simp] def DBUS_TYPE_UNIX_FD : Nat := 104
@[simp] def DBUS_TYPE_ARRAY : Nat := 97
@[simp] def DBUS_TYPE_VARIANT : Nat := 118
@[simp] def DBUS_TYPE_STRUCT : Nat := 114
@[simp] def DBUS_TYPE_DICT_ENTRY : Nat := 101

def DBUS_TYPE_BOOLEAN_AS_STRING : String := "b"
def DBUS_TYPE_STRING_AS_STRING : String := "s"
def DBUS_TYPE_INT32_AS_STRING : String := "i"
def DBUS_TYPE_DOUBLE_AS_STRING : String := "d"
def DBUS_TYPE_UINT32_AS_STRING : String := "u"

/-! ## Signatures -/

/-- One complete type of a signature. -/
inductive TypeDescriptor where
  | Byte
  | Boolean
  | Int16
  | UInt16
  | Int32
  | UInt32
  | Int64
  | UInt64
  | Double
  | String
  | ObjectPath
  | Signature
  | UnixFd
  | Variant
  | Array (element : TypeDescriptor)
  | DictEntry (key : TypeDescriptor) (value : TypeDescriptor)
  | Struct (fields : List TypeDescriptor)

/-- The type code libdbus reports for a complete type: its first character,
with `(` reported as `DBUS_TYPE_STRUCT` and `{` as `DBUS_TYPE_DICT_ENTRY`. -/
def type_code : TypeDescriptor → Nat
  | .Byte => DBUS_TYPE_BYTE
  | .Boolean => DBUS_TYPE_BOOLEAN
  | .Int16 => DBUS_TYPE_INT16
  | .UInt16 => DBUS_TYPE_UINT16
  | .Int32 => DBUS_TYPE_INT32
  | .UInt32 => DBUS_TYPE_UINT32
  | .Int64 => DBUS_TYPE_INT64
  | .UInt64 => DBUS_TYPE_UINT64
  | .Double => DBUS_TYPE_DOUBLE
  | .String => DBUS_TYPE_STRING
  | .ObjectPath => DBUS_TYPE_OBJECT_PATH
  | .Signature => DBUS_TYPE_SIGNATURE
  | .UnixFd => DBUS_TYPE_UNIX_FD
  | .Variant => DBUS_TYPE_VARIANT
  | .Array _ => DBUS_TYPE_ARRAY
  | .DictEntry _ _ => DBUS_TYPE_DICT_ENTRY
  | .Struct _ => DBUS_TYPE_STRUCT

mutual
/-- The signature string of one complete type. -/
def signature : TypeDescriptor → String
  | .Byte => "y"
  | .Boolean => "b"
  | .Int16 => "n"
  | .UInt16 => "q"
  | .Int32 => "i"
  | .UInt32 => "u"
  | .Int64 => "x"
  | .UInt64 => "t"
  | .Double => "d"
  | .String => "s"
  | .ObjectPath => "o"
  | .Signature => "g"
  | .UnixFd => "h"
  | .Variant => "v"
  | .Array e => "a" ++ signature e
  | .DictEntry k v => "\x7b" ++ signature k ++ signature v ++ "\x7d"
  | .Struct fs => "(" ++ signatures fs ++ ")"
/-- The signature string of a sequence of complete types. -/
def signatures : List TypeDescriptor → String
  | [] => ""
  | d :: ds => signature d ++ signatures ds
end

/-! ## Signature iterators (libdbus) -/

/-- A signature iterator: the complete types from the current position to
the end of the iterator's level. -/
abbrev DBusSignatureIter := List TypeDescriptor

/-- `dbus_signature_iter_init`: an iterator at the first complete type. -/
def dbus_signature_iter_init (signature : List TypeDescriptor) : DBusSignatureIter :=
  signature

/-- `dbus_signature_iter_get_current_type`; `DBUS_TYPE_INVALID` at the end. -/
def dbus_signature_iter_get_current_type : DBusSignatureIter → Nat
  | [] => DBUS_TYPE_INVALID
  | d :: _ => type_code d

/-- `dbus_signature_iter_get_signature`: the string of the current complete
type. -/
def dbus_signature_iter_get_signature : DBusSignatureIter → String
  | [] => ""
  | d :: _ => signature d

/-- `dbus_signature_iter_recurse`: a sub-iterator over the contents of the
current container type. -/
def dbus_signature_iter_recurse : DBusSignatureIter → DBusSignatureIter
  | .Array e :: _ => [e]
  | .DictEntry k v :: _ => [k, v]
  | .Struct fs :: _ => fs
  | _ => []

/-- `dbus_signature_iter_get_element_type`: the type code of the element of
the current array type. -/
def dbus_signature_iter_get_element_type (sig_iter : DBusSignatureIter) : Nat :=
  dbus_signature_iter_get_current_type (dbus_signature_iter_recurse sig_iter)

/-- `dbus_signature_iter_next`: skip one complete type. A step taken at the
end of the signature moves the iterator past the terminator of the string,
where it has no position in the signature any more: `none`. -/
def dbus_signature_iter_next : DBusSignatureIter → Option DBusSignatureIter
  | [] => none
  | _ :: rest => some rest

/-! ## Godot values -/

/-- An IEEE-754 binary64 value, kept as its bit pattern. -/
structure Double where
  bits : Nat
deriving DecidableEq, Repr

/-- Modelled from the spec: the `DBusUInt32` class is declared in
`dbus_message.h`, which is not among the sources; it is "a wrapper object
carrying a 32-bit unsigned value". A Godot object is kept as far as
`append_arg` looks at it: its class name and, for the wrapper, the wrapped
value. -/
structure Object where
  class_name : String
  value : Nat
deriving DecidableEq, Repr

/-- The `Variant::Type` tags `append_arg` distinguishes; every other Godot
type is `OTHER`. -/
inductive VariantType where
  | NIL
  | BOOL
  | INT
  | FLOAT
  | STRING
  | OBJECT
  | DICTIONARY
  | ARRAY
  | OTHER (tag : Nat)
deriving DecidableEq, Repr

/-- A Godot `Variant`. An `OBJECT` holds a live object; `OTHER` stands for
the Godot types `append_arg` has no case for (vectors, colours, packed
arrays and so on). -/
inductive Variant where
  | NIL
  | BOOL (b : Bool)
  | INT (i : Int)
  | FLOAT (f : Double)
  | STRING (s : String)
  | OBJECT (o : Object)
  | DICTIONARY (entries : List (Variant × Variant))
  | ARRAY (elements : List Variant)
  | OTHER (tag : Nat)

/-- `Variant::get_type`. -/
def Variant.get_type : Variant → VariantType
  | .NIL => .NIL
  | .BOOL _ => .BOOL
  | .INT _ => .INT
  | .FLOAT _ => .FLOAT
  | .STRING _ => .STRING
  | .OBJECT _ => .OBJECT
  | .DICTIONARY _ => .DICTIONARY
  | .ARRAY _ => .ARRAY
  | .OTHER tag => .OTHER tag

/-- `Dictionary::keys`. -/
def Variant.keys : Variant → List Variant
  | .DICTIONARY entries => entries.map Prod.fst
  | _ => []

/-- Modelled from the spec: `DBusUInt32::get_value` (`dbus_message.h`), the
wrapped value, which reaches `append_arg` converted to an integer `Variant`. -/
def Object.get_value (o : Object) : Variant :=
  .INT (Int.ofNat o.value)

/-- Godot's conversions of a `Variant` to a type other than its own, and the
`String::ascii().get_data()` round trip. They are engine code. -/
structure GodotCasts where
  to_String : Variant → String
  to_int64 : Variant → Int
  to_double : Variant → Double
  to_bool : Variant → Bool
  to_Array : Variant → List Variant
  ascii_data : String → String

/-- `String(variant)`. -/
def cast_String (c : GodotCasts) : Variant → String
  | .STRING s => s
  | v => c.to_String v

/-- `(int64_t)variant`. -/
def cast_int64 (c : GodotCasts) : Variant → Int
  | .INT i => i
  | v => c.to_int64 v

/-- `(dbus_int32_t)variant`: the 64-bit value narrowed to 32 bits, two's
complement. -/
def cast_int32 (c : GodotCasts) (v : Variant) : Int :=
  (cast_int64 c v + 2 ^ 31) % 2 ^ 32 - 2 ^ 31

/-- `(dbus_uint32_t)variant`: the 64-bit value narrowed to 32 bits. -/
def cast_uint32 (c : GodotCasts) (v : Variant) : Nat :=
  (cast_int64 c v % 2 ^ 32).toNat

/-- `(double)variant`. -/
def cast_double (c : GodotCasts) : Variant → Double
  | .FLOAT f => f
  | v => c.to_double v

/-- `variant.booleanize()`. -/
def booleanize (c : GodotCasts) : Variant → Bool
  | .BOOL b => b
  | v => c.to_bool v

/-- `Array(variant)`. -/
def cast_Array (c : GodotCasts) : Variant → List Variant
  | .ARRAY elements => elements
  | v => c.to_Array v

/-! ## The message builder, seen through the calls made on it -/

/-- The value handed to `dbus_message_iter_append_basic`. -/
inductive BasicValue where
  | string (data : String)
  | int32 (arg : Int)
  | uint32 (arg : Nat)
  | double (arg : Double)
  | boolean (arg : Bool)
deriving DecidableEq, Repr

/-- One observable step of `append_arg`. A `DBusMessageIter` is named by a
number: the caller's iterator is `iter`, the sub-iterator a call declares
locally is `iter + 1`. A warning or error pushed to Godot is recorded by its
fixed text. -/
inductive Call where
  | dbus_message_iter_append_basic (iter : Nat) (type : Nat) (value : BasicValue)
  | dbus_message_iter_open_container (iter : Nat) (type : Nat)
      (contained_signature : String) (sub : Nat)
  | dbus_message_iter_close_container (iter : Nat) (sub : Nat)
  | push_warning (text : String)
  | push_error (text : String)
deriving DecidableEq, Repr

/-- The number of array levels of a type, counted above a variant. -/
def weight : TypeDescriptor → Nat
  | .Array e => weight e + 1
  | .Variant => 1
  | _ => 0

/-- The measure that decreases along the recursion of `append_arg`: the
weight of the current type. -/
def sig_weight : DBusSignatureIter → Nat
  | [] => 0
  | d :: _ => weight d

/-- Sets the given argument on the message with the given iterator
(`append_arg`, dbus.cpp:125). The result is the sequence of builder calls and
warnings, in the order the code makes them. The local sub-iterator
(`arr_iter`, `sub_iter`) is `iter + 1`. The tests of the array and variant
branches spell `arg_type` out, which keeps them in scope of the termination
proof; the test `variant_type == variant.OBJECT` is the `OBJECT` case of the
final match. -/
def append_arg (c : GodotCasts) (iter : Nat) (variant : Variant)
    (sig_iter : DBusSignatureIter) : List Call :=
  let variant_type := variant.get_type
  let arg_type := dbus_signature_iter_get_current_type sig_iter
  if arg_type = DBUS_TYPE_STRING then
    let arg := cast_String c variant
    let data := c.ascii_data (c.ascii_data arg)
    [.dbus_message_iter_append_basic iter DBUS_TYPE_STRING (.string data)]
  else if arg_type = DBUS_TYPE_INT32 then
    [.dbus_message_iter_append_basic iter DBUS_TYPE_INT32 (.int32 (cast_int32 c variant))]
  else if arg_type = DBUS_TYPE_UINT32 then
    [.dbus_message_iter_append_basic iter DBUS_TYPE_UINT32 (.uint32 (cast_uint32 c variant))]
  else if arg_type = DBUS_TYPE_DOUBLE then
    [.dbus_message_iter_append_basic iter DBUS_TYPE_DOUBLE (.double (cast_double c variant))]
  else if arg_type = DBUS_TYPE_BOOLEAN then
    [.dbus_message_iter_append_basic iter DBUS_TYPE_BOOLEAN (.boolean (booleanize c variant))]
  else if h_array : dbus_signature_iter_get_current_type sig_iter = DBUS_TYPE_ARRAY then
    let arr_iter := iter + 1
    let array_type := dbus_signature_iter_get_element_type sig_iter
    if array_type = DBUS_TYPE_DICT_ENTRY then
      if variant_type ≠ .DICTIONARY then
        [.push_warning "Passed dictionary signature without dictionary argument"]
      else
        let dict_sig_iter := dbus_signature_iter_recurse sig_iter
        let dict_sig := dbus_signature_iter_get_signature dict_sig_iter
        let keys := variant.keys
        [.dbus_message_iter_open_container iter DBUS_TYPE_ARRAY dict_sig arr_iter]
          ++ keys.flatMap (fun _ => [])
          ++ [.dbus_message_iter_close_container iter arr_iter]
    else
      let array_sig_iter := dbus_signature_iter_recurse sig_iter
      let array_sig := dbus_signature_iter_get_signature array_sig_iter
      let array := cast_Array c variant
      [.dbus_message_iter_open_container iter DBUS_TYPE_ARRAY array_sig arr_iter]
        ++ array.flatMap (fun element => append_arg c arr_iter element array_sig_iter)
        ++ [.dbus_message_iter_close_container iter arr_iter]
  else if _h_variant : dbus_signature_iter_get_current_type sig_iter = DBUS_TYPE_VARIANT
      ∨ dbus_signature_iter_get_current_type sig_iter = 119 then
    let sub_iter := iter + 1
    if variant_type = .BOOL then
      let sub_sig_iter := dbus_signature_iter_init [.Boolean]
      [.dbus_message_iter_open_container iter DBUS_TYPE_VARIANT
          DBUS_TYPE_BOOLEAN_AS_STRING sub_iter]
        ++ append_arg c sub_iter variant sub_sig_iter
        ++ [.dbus_message_iter_close_container iter sub_iter]
    else if variant_type = .STRING then
      let sub_sig_iter := dbus_signature_iter_init [.String]
      [.dbus_message_iter_open_container iter DBUS_TYPE_VARIANT
          DBUS_TYPE_STRING_AS_STRING sub_iter]
        ++ append_arg c sub_iter variant sub_sig_iter
        ++ [.dbus_message_iter_close_container iter sub_iter]
    else if variant_type = .INT then
      let sub_sig_iter := dbus_signature_iter_init [.Int32]
      [.dbus_message_iter_open_container iter DBUS_TYPE_VARIANT
          DBUS_TYPE_INT32_AS_STRING sub_iter]
        ++ append_arg c sub_iter variant sub_sig_iter
        ++ [.dbus_message_iter_close_container iter sub_iter]
    else if variant_type = .FLOAT then
      let sub_sig_iter := dbus_signature_iter_init [.Double]
      [.dbus_message_iter_open_container iter DBUS_TYPE_VARIANT
          DBUS_TYPE_DOUBLE_AS_STRING sub_iter]
        ++ append_arg c sub_iter variant sub_sig_iter
        ++ [.dbus_message_iter_close_container iter sub_iter]
    else
      match variant with
      | .OBJECT object =>
        let class_name := object.class_name
        if class_name = "DBusUInt32" then
          let sub_sig_iter := dbus_signature_iter_init [.UInt32]
          [.dbus_message_iter_open_container iter DBUS_TYPE_VARIANT
              DBUS_TYPE_UINT32_AS_STRING sub_iter]
            ++ append_arg c sub_iter object.get_value sub_sig_iter
            ++ [.dbus_message_iter_close_container iter sub_iter]
        else
          [.push_warning "Invalid/unhandled Godot object type: "]
      | _ => [.push_warning "Invalid/unhandled variant type: "]
  else
    [.push_warning "Invalid/unhandled argument type: "]
termination_by sig_weight sig_iter
decreasing_by
  · cases sig_iter with
    | nil => simp [dbus_signature_iter_get_current_type] at h_array
    | cons d rest =>
      cases d <;>
        first
        | (simp [dbus_signature_iter_get_current_type, type_code] at h_array; done)
        | simp [dbus_signature_iter_recurse, sig_weight, weight]
  all_goals
    cases sig_iter with
    | nil => simp [dbus_signature_iter_get_current_type] at _h_variant
    | cons d rest =>
      cases d <;>
        first
        | (simp [dbus_signature_iter_get_current_type, type_code] at _h_variant; done)
        | simp [dbus_signature_iter_init, sig_weight, weight]

/-- The loop of `send_with_reply_and_block` over the arguments
(dbus.cpp:347): one `append_arg` per argument, the signature iterator moved
on by one complete type after each. The iterator is `none` once it has
stepped past the end of the signature; an argument met in that state would
be encoded against whatever follows the signature in memory, which has no
defined outcome: `none`. The step after the last argument is never read. -/
def encode_args (c : GodotCasts) (iter : Nat) :
    List Variant → Option DBusSignatureIter → Option (List Call)
  | [], _ => some []
  | _ :: _, none => none
  | variant :: args, some sig_iter =>
    (encode_args c iter args (dbus_signature_iter_next sig_iter)).map
      (fun calls => append_arg c iter variant sig_iter ++ calls)

/-! ## The connection facade -/

/-- A `DBusConnection *` that is not null. -/
abbrev DBusConnection := Nat

/-- A native `::DBusMessage *` that is not null. -/
abbrev NativeMessage := Nat

/-- The Godot error codes `connect` returns. -/
inductive Error where
  | OK
  | ERR_CANT_CONNECT
deriving DecidableEq, Repr

/-- Whether a step is a call on the message builder (not a Godot warning or
error). -/
def Call.is_builder_call : Call → Bool
  | .push_warning _ => false
  | .push_error _ => false
  | _ => true

/-- The method call handed to the bus: its four names and the builder calls
that filled its body. -/
structure MethodCall where
  bus_name : String
  path : String
  iface : String
  method : String
  body : List Call
deriving DecidableEq, Repr

/-- The answers of libdbus and of the bus behind it. -/
structure LibDBus where
  dbus_bus_get : Int → Option DBusConnection
  dbus_signature_validate : List TypeDescriptor → Bool
  dbus_connection_send_with_reply_and_block :
    DBusConnection → MethodCall → Option NativeMessage

/-- The `DBusMessage` wrapper object returned to Godot (`dbus_message.h`);
only its `message` field is set here. -/
structure DBusMessage where
  message : NativeMessage
deriving DecidableEq, Repr

/-- The `DBus` object: `dbus_conn` is `none` for `nullptr`. -/
structure DBus where
  dbus_conn : Option DBusConnection
deriving DecidableEq, Repr

/-- Connect to the dbus interface (`DBus::connect`, dbus.cpp:30): the new
object state, the returned error code and what was pushed to Godot. -/
def DBus.connect (lib : LibDBus) (_self : DBus) (bus_type : Int) :
    DBus × Error × List Call :=
  let dbus_conn := lib.dbus_bus_get bus_type
  match dbus_conn with
  | none =>
    ({ dbus_conn := dbus_conn }, .ERR_CANT_CONNECT,
      [.push_warning "Unable to connect to bus: "])
  | some _ => ({ dbus_conn := dbus_conn }, .OK, [])

/-- What one call of `send_with_reply_and_block` did: the returned object
(`none` for `nullptr`), the method call handed to
`dbus_connection_send_with_reply_and_block` if that was reached, and the
steps performed on the way. -/
structure SendResult where
  response : Option DBusMessage
  sent : Option MethodCall
  trace : List Call
deriving DecidableEq, Repr

/-- Send the given message and wait for a reply
(`DBus::send_with_reply_and_block`, dbus.cpp:311). `none` when the argument
loop has no defined outcome (see `encode_args`). -/
def DBus.send_with_reply_and_block (lib : LibDBus) (c : GodotCasts) (self : DBus)
    (bus_name path iface method : String) (args : List Variant)
    (signature : List TypeDescriptor) : Option SendResult :=
  match self.dbus_conn with
  | none =>
    some { response := none, sent := none,
           trace := [.push_error "No dbus connection exists"] }
  | some dbus_conn =>
    if ¬ lib.dbus_signature_validate signature then
      some { response := none, sent := none,
             trace := [.push_warning "Invalid signature passed: "] }
    else
      let iter := 0
      let sig_iter := dbus_signature_iter_init signature
      match encode_args c iter args (some sig_iter) with
      | none => none
      | some calls =>
        let msg : MethodCall :=
          { bus_name := bus_name, path := path, iface := iface, method := method,
            body := calls.filter Call.is_builder_call }
        match lib.dbus_connection_send_with_reply_and_block dbus_conn msg with
        | none =>
          some { response := none, sent := some msg,
                 trace := calls ++ [.push_warning "Unable to send message "] }
        | some reply =>
          some { response := some { message := reply }, sent := some msg, trace := calls }

/-! ## The message body the builder calls produce -/

/-- A value in a message body. -/
inductive WireValue where
  | basic (type : Nat) (value : BasicValue)
  | container (type : Nat) (contained_signature : String) (contents : List WireValue)

/-- A container that has been opened and not yet closed. -/
structure Frame where
  parent : Nat
  sub : Nat
  type : Nat
  contained_signature : String
  contents : List WireValue

/-- The message builder: the top-level append iterator, the complete
top-level values, and the containers now open, innermost first. -/
structure Builder where
  iter : Nat
  body : List WireValue
  open_containers : List Frame

/-- `dbus_message_iter_init_append`: an empty body, nothing open. -/
def Builder.init (iter : Nat) : Builder :=
  { iter := iter, body := [], open_containers := [] }

/-- The iterator values are appended through at this point: the
sub-iterator of the innermost open container, or the top-level one. -/
def Builder.current (b : Builder) : Nat :=
  match b.open_containers with
  | [] => b.iter
  | f :: _ => f.sub

/-- Append complete values at the current position. -/
def Builder.put (b : Builder) (ws : List WireValue) : Builder :=
  match b.open_containers with
  | [] => { b with body := b.body ++ ws }
  | f :: fs => { b with open_containers := { f with contents := f.contents ++ ws } :: fs }

/-- One step on the builder. A builder call through an iterator other than
the current one, or a close that does not match the innermost open
container, is refused. -/
def Builder.step (b : Builder) : Call → Option Builder
  | .dbus_message_iter_append_basic iter type value =>
    if iter = b.current then some (b.put [.basic type value]) else none
  | .dbus_message_iter_open_container iter type contained_signature sub =>
    if iter = b.current then
      some { b with open_containers :=
        { parent := iter, sub := sub, type := type,
          contained_signature := contained_signature, contents := [] }
          :: b.open_containers }
    else none
  | .dbus_message_iter_close_container iter sub =>
    match b.open_containers with
    | [] => none
    | f :: fs =>
      if f.parent = iter ∧ f.sub = sub then
        some (Builder.put { b with open_containers := fs }
          [.container f.type f.contained_signature f.contents])
      else none
  | .push_warning _ => some b
  | .push_error _ => some b

/-- Run a sequence of steps; `none` as soon as one is refused. -/
def Builder.run (b : Builder) : List Call → Option Builder
  | [] => some b
  | call :: calls =>
    match b.step call with
    | none => none
    | some b' => b'.run calls

mutual
/-- The signature string of a wire value. -/
def wire_signature : WireValue → String
  | .basic type _ => String.singleton (Char.ofNat type)
  | .container type contained_signature contents =>
    if type = DBUS_TYPE_ARRAY then "a" ++ contained_signature
    else if type = DBUS_TYPE_VARIANT then "v"
    else if type = DBUS_TYPE_STRUCT then "(" ++ wire_signatures contents ++ ")"
    else "\x7b" ++ wire_signatures contents ++ "\x7d"
/-- The signature string of a sequence of wire values. -/
def wire_signatures : List WireValue → String
  | [] => ""
  | w :: ws => wire_signature w ++ wire_signatures ws
end

mutual
/-- Whether a wire value has the type of a descriptor, for the descriptors
`append_arg` writes: a basic value of the descriptor's kind, or an array
container tagged with the element signature whose contents all have the
element type. -/
def has_type : TypeDescriptor → WireValue → Bool
  | .String, .basic type (.string _) => type = DBUS_TYPE_STRING
  | .Int32, .basic type (.int32 _) => type = DBUS_TYPE_INT32
  | .UInt32, .basic type (.uint32 _) => type = DBUS_TYPE_UINT32
  | .Double, .basic type (.double _) => type = DBUS_TYPE_DOUBLE
  | .Boolean, .basic type (.boolean _) => type = DBUS_TYPE_BOOLEAN
  | .Array e, .container type contained_signature contents =>
    type = DBUS_TYPE_ARRAY ∧ contained_signature = signature e ∧ all_have_type e contents
  | _, _ => false
/-- Whether every wire value of a list has the type of a descriptor. -/
def all_have_type : TypeDescriptor → List WireValue → Bool
  | _, [] => true
  | e, w :: ws => has_type e w && all_have_type e ws
end

/-- The descriptors built only from String, Int32, UInt32, Double, Boolean
and arrays of these. -/
def supported : TypeDescriptor → Bool
  | .String => true
  | .Int32 => true
  | .UInt32 => true
  | .Double => true
  | .Boolean => true
  | .Array e => supported e
  | _ => false

/-- Whether the variant branch of `append_arg` has a rule for the value:
a boolean, text, integer or float, or a `DBusUInt32` object. -/
def variant_inferable : Variant → Bool
  | .BOOL _ => true
  | .STRING _ => true
  | .INT _ => true
  | .FLOAT _ => true
  | .OBJECT o => o.class_name = "DBusUInt32"
  | _ => false

/-- A concrete choice of the engine conversions, for evaluation: every
conversion to a foreign type gives the zero of that type, and ASCII text is
handed over unchanged. -/
def sample_casts : GodotCasts where
  to_String := fun _ => ""
  to_int64 := fun _ => 0
  to_double := fun _ => ⟨0⟩
  to_bool := fun _ => false
  to_Array := fun _ => []
  ascii_data := fun s => s

/-- A bus for evaluation: every connection request and every signature is
accepted, and every call is answered with the reply handle 7. -/
def sample_lib : LibDBus where
  dbus_bus_get := fun _ => some 1
  dbus_signature_validate := fun _ => true
  dbus_connection_send_with_reply_and_block := fun _ _ => some 7

/-- A bus library whose connection request fails. -/
def failing_lib : LibDBus where
  dbus_bus_get := fun _ => none
  dbus_signature_validate := fun _ => true
  dbus_connection_send_with_reply_and_block := fun _ _ => none

/-- The steps `calls`, made with `iter` as the current iterator, are all
accepted by the builder and leave it as it was but for the complete values
`ws` appended at the current position: whatever they opened they closed. -/
def Produces (iter : Nat) (calls : List Call) (ws : List WireValue) : Prop :=
  ∀ b : Builder, b.current = iter → b.run calls = some (b.put ws)

/-! ## How `append_arg` unfolds on each kind of descriptor -/

theorem append_arg_String (c : GodotCasts) (iter : Nat) (v : Variant)
    (rest : List TypeDescriptor) :
    append_arg c iter v (.String :: rest)
      = [.dbus_message_iter_append_basic iter DBUS_TYPE_STRING
          (.string (c.ascii_data (c.ascii_data (cast_String c v))))] := by
  rw [append_arg]
  simp [dbus_signature_iter_get_current_type, type_code]

theorem append_arg_Int32 (c : GodotCasts) (iter : Nat) (v : Variant)
    (rest : List TypeDescriptor) :
    append_arg c iter v (.Int32 :: rest)
      = [.dbus_message_iter_append_basic iter DBUS_TYPE_INT32 (.int32 (cast_int32 c v))] := by
  rw [append_arg]
  simp [dbus_signature_iter_get_current_type, type_code]

theorem append_arg_UInt32 (c : GodotCasts) (iter : Nat) (v : Variant)
    (rest : List TypeDescriptor) :
    append_arg c iter v (.UInt32 :: rest)
      = [.dbus_message_iter_append_basic iter DBUS_TYPE_UINT32
          (.uint32 (cast_uint32 c v))] := by
  rw [append_arg]
  simp [dbus_signature_iter_get_current_type, type_code]

theorem append_arg_Double (c : GodotCasts) (iter : Nat) (v : Variant)
    (rest : List TypeDescriptor) :
    append_arg c iter v (.Double :: rest)
      = [.dbus_message_iter_append_basic iter DBUS_TYPE_DOUBLE
          (.double (cast_double c v))] := by
  rw [append_arg]
  simp [dbus_signature_iter_get_current_type, type_code]

theorem append_arg_Boolean (c : GodotCasts) (iter : Nat) (v : Variant)
    (rest : List TypeDescriptor) :
    append_arg c iter v (.Boolean :: rest)
      = [.dbus_message_iter_append_basic iter DBUS_TYPE_BOOLEAN
          (.boolean (booleanize c v))] := by
  rw [append_arg]
  simp [dbus_signature_iter_get_current_type, type_code]

/-- A type code none of the branches of `append_arg` tests for ends in the
final warning. -/
theorem append_arg_unhandled (c : GodotCasts) (iter : Nat) (v : Variant)
    (sig_iter : DBusSignatureIter)
    (h : dbus_signature_iter_get_current_type sig_iter ∉
      [DBUS_TYPE_STRING, DBUS_TYPE_INT32, DBUS_TYPE_UINT32, DBUS_TYPE_DOUBLE,
        DBUS_TYPE_BOOLEAN, DBUS_TYPE_ARRAY, DBUS_TYPE_VARIANT, 119]) :
    append_arg c iter v sig_iter = [.push_warning "Invalid/unhandled argument type: "] := by
  rw [append_arg]
  simp at h
  simp [h]

/-- The dictionary branch with a dictionary value: the array container is
opened and closed, nothing is written in between. -/
theorem append_arg_dictionary (c : GodotCasts) (iter : Nat)
    (entries : List (Variant × Variant)) (key value : TypeDescriptor)
    (rest : List TypeDescriptor) :
    append_arg c iter (.DICTIONARY entries) (.Array (.DictEntry key value) :: rest)
      = [.dbus_message_iter_open_container iter DBUS_TYPE_ARRAY
            (signature (.DictEntry key value)) (iter + 1),
         .dbus_message_iter_close_container iter (iter + 1)] := by
  rw [append_arg]
  simp [dbus_signature_iter_get_current_type, type_code,
    dbus_signature_iter_get_element_type, dbus_signature_iter_recurse,
    dbus_signature_iter_get_signature, Variant.get_type]

/-- The dictionary branch with any other value: a warning and nothing else. -/
theorem append_arg_dictionary_mismatch (c : GodotCasts) (iter : Nat) (v : Variant)
    (key value : TypeDescriptor) (rest : List TypeDescriptor)
    (h : v.get_type ≠ .DICTIONARY) :
    append_arg c iter v (.Array (.DictEntry key value) :: rest)
      = [.push_warning "Passed dictionary signature without dictionary argument"] := by
  rw [append_arg]
  simp [dbus_signature_iter_get_current_type, type_code,
    dbus_signature_iter_get_element_type, dbus_signature_iter_recurse, h]

/-- The regular array branch. -/
theorem append_arg_regular_array (c : GodotCasts) (iter : Nat) (v : Variant)
    (element : TypeDescriptor) (rest : List TypeDescriptor)
    (h : type_code element ≠ DBUS_TYPE_DICT_ENTRY) :
    append_arg c iter v (.Array element :: rest)
      = [.dbus_message_iter_open_container iter DBUS_TYPE_ARRAY (signature element)
            (iter + 1)]
        ++ (cast_Array c v).flatMap (fun x => append_arg c (iter + 1) x [element])
        ++ [.dbus_message_iter_close_container iter (iter + 1)] := by
  have h_code : type_code (.Array element) = 97 := rfl
  rw [append_arg]
  simp at h
  simp [dbus_signature_iter_get_current_type, dbus_signature_iter_get_element_type,
    dbus_signature_iter_recurse, dbus_signature_iter_get_signature, h, h_code]

/-- The variant branch on a value it has no rule for: one warning, no
builder call. -/
theorem append_arg_variant_unhandled (c : GodotCasts) (iter : Nat) (v : Variant)
    (rest : List TypeDescriptor) (h : variant_inferable v = false) :
    append_arg c iter v (.Variant :: rest)
      = [.push_warning (match v with
          | .OBJECT _ => "Invalid/unhandled Godot object type: "
          | _ => "Invalid/unhandled variant type: ")] := by
  rw [append_arg]
  cases v <;> simp [variant_inferable] at h <;>
    simp [dbus_signature_iter_get_current_type, type_code, Variant.get_type, h]

theorem append_arg_variant_BOOL (c : GodotCasts) (iter : Nat) (b : Bool)
    (rest : List TypeDescriptor) :
    append_arg c iter (.BOOL b) (.Variant :: rest)
      = [.dbus_message_iter_open_container iter DBUS_TYPE_VARIANT "b" (iter + 1),
         .dbus_message_iter_append_basic (iter + 1) DBUS_TYPE_BOOLEAN (.boolean b),
         .dbus_message_iter_close_container iter (iter + 1)] := by
  rw [append_arg]
  simp [dbus_signature_iter_get_current_type, type_code, Variant.get_type,
    dbus_signature_iter_init, append_arg_Boolean, booleanize,
    DBUS_TYPE_BOOLEAN_AS_STRING]

theorem append_arg_variant_INT (c : GodotCasts) (iter : Nat) (i : Int)
    (rest : List TypeDescriptor) :
    append_arg c iter (.INT i) (.Variant :: rest)
      = [.dbus_message_iter_open_container iter DBUS_TYPE_VARIANT "i" (iter + 1),
         .dbus_message_iter_append_basic (iter + 1) DBUS_TYPE_INT32
           (.int32 ((i + 2 ^ 31) % 2 ^ 32 - 2 ^ 31)),
         .dbus_message_iter_close_container iter (iter + 1)] := by
  rw [append_arg]
  simp [dbus_signature_iter_get_current_type, type_code, Variant.get_type,
    dbus_signature_iter_init, append_arg_Int32, cast_int32, cast_int64,
    DBUS_TYPE_INT32_AS_STRING]

theorem append_arg_variant_FLOAT (c : GodotCasts) (iter : Nat) (f : Double)
    (rest : List TypeDescriptor) :
    append_arg c iter (.FLOAT f) (.Variant :: rest)
      = [.dbus_message_iter_open_container iter DBUS_TYPE_VARIANT "d" (iter + 1),
         .dbus_message_iter_append_basic (iter + 1) DBUS_TYPE_DOUBLE (.double f),
         .dbus_message_iter_close_container iter (iter + 1)] := by
  rw [append_arg]
  simp [dbus_signature_iter_get_current_type, type_code, Variant.get_type,
    dbus_signature_iter_init, append_arg_Double, cast_double,
    DBUS_TYPE_DOUBLE_AS_STRING]

theorem append_arg_variant_STRING (c : GodotCasts) (iter : Nat) (s : String)
    (rest : List TypeDescriptor) :
    append_arg c iter (.STRING s) (.Variant :: rest)
      = [.dbus_message_iter_open_container iter DBUS_TYPE_VARIANT "s" (iter + 1),
         .dbus_message_iter_append_basic (iter + 1) DBUS_TYPE_STRING
           (.string (c.ascii_data (c.ascii_data s))),
         .dbus_message_iter_close_container iter (iter + 1)] := by
  rw [append_arg]
  simp [dbus_signature_iter_get_current_type, type_code, Variant.get_type,
    dbus_signature_iter_init, append_arg_String, cast_String,
    DBUS_TYPE_STRING_AS_STRING]

theorem append_arg_variant_DBusUInt32 (c : GodotCasts) (iter : Nat) (o : Object)
    (rest : List TypeDescriptor) (h : o.class_name = "DBusUInt32") :
    append_arg c iter (.OBJECT o) (.Variant :: rest)
      = [.dbus_message_iter_open_container iter DBUS_TYPE_VARIANT "u" (iter + 1),
         .dbus_message_iter_append_basic (iter + 1) DBUS_TYPE_UINT32
           (.uint32 (o.value % 2 ^ 32)),
         .dbus_message_iter_close_container iter (iter + 1)] := by
  rw [append_arg]
  simp [dbus_signature_iter_get_current_type, type_code, Variant.get_type,
    dbus_signature_iter_init, append_arg_UInt32, cast_uint32, cast_int64,
    Object.get_value, DBUS_TYPE_UINT32_AS_STRING, h]
  omega

/-- An integer that fits 32 bits is handed over unchanged by the cast to
`dbus_int32_t`. -/
theorem cast_int32_of_fits (c : GodotCasts) (i : Int) (h_low : -(2 ^ 31) ≤ i)
    (h_high : i < 2 ^ 31) : cast_int32 c (.INT i) = i := by
  simp only [cast_int32, cast_int64]
  omega

/-! ## The builder -/

theorem Builder.put_current (b : Builder) (ws : List WireValue) :
    (b.put ws).current = b.current := by
  unfold Builder.put Builder.current
  cases h : b.open_containers <;> simp

theorem Builder.put_nil (b : Builder) : b.put [] = b := by
  obtain ⟨iter, body, frames⟩ := b
  cases frames <;> simp [Builder.put]

theorem Builder.put_put (b : Builder) (ws₁ ws₂ : List WireValue) :
    (b.put ws₁).put ws₂ = b.put (ws₁ ++ ws₂) := by
  unfold Builder.put
  cases h : b.open_containers <;> simp

theorem Builder.run_append (b : Builder) (xs ys : List Call) :
    b.run (xs ++ ys) = (b.run xs).bind (fun b' => b'.run ys) := by
  induction xs generalizing b with
  | nil => simp [Builder.run]
  | cons x xs ih =>
    simp only [List.cons_append, Builder.run]
    cases b.step x with
    | none => simp
    | some b' => simpa using ih b'

theorem produces_nil (iter : Nat) : Produces iter [] [] := by
  intro b _
  simp [Builder.run, Builder.put_nil]

theorem produces_warning (iter : Nat) (text : String) :
    Produces iter [.push_warning text] [] := by
  intro b _
  simp [Builder.run, Builder.step, Builder.put_nil]

theorem produces_basic (iter type : Nat) (value : BasicValue) :
    Produces iter [.dbus_message_iter_append_basic iter type value] [.basic type value] := by
  intro b hb
  simp [Builder.run, Builder.step, hb]

theorem produces_append {iter : Nat} {xs ys : List Call} {ws₁ ws₂ : List WireValue}
    (h₁ : Produces iter xs ws₁) (h₂ : Produces iter ys ws₂) :
    Produces iter (xs ++ ys) (ws₁ ++ ws₂) := by
  intro b hb
  rw [Builder.run_append, h₁ b hb]
  simp only [Option.bind]
  rw [h₂ (b.put ws₁) (by rw [Builder.put_current, hb]), Builder.put_put]

/-- A container opened on `iter`, filled through its sub-iterator by steps
that leave nothing open, and closed on the same pair, is one complete
container value at `iter`. -/
theorem produces_container {iter sub type : Nat} {contained_signature : String}
    {inner : List Call} {contents : List WireValue} (h : Produces sub inner contents) :
    Produces iter
      ([.dbus_message_iter_open_container iter type contained_signature sub]
        ++ inner ++ [.dbus_message_iter_close_container iter sub])
      [.container type contained_signature contents] := by
  intro b hb
  rw [List.append_assoc, Builder.run_append]
  simp only [Builder.run, Builder.step, hb, if_true, Option.bind]
  rw [Builder.run_append, h _ (by simp [Builder.current])]
  simp [Builder.run, Builder.step, Builder.put]

theorem produces_flatMap {α : Type} (iter : Nat) (f : α → List Call)
    (Q : WireValue → Prop) (xs : List α)
    (h : ∀ x ∈ xs, ∃ ws, Produces iter (f x) ws ∧ ∀ w ∈ ws, Q w) :
    ∃ ws, Produces iter (xs.flatMap f) ws ∧ ∀ w ∈ ws, Q w := by
  induction xs with
  | nil => exact ⟨[], by simpa using produces_nil iter, by simp⟩
  | cons x xs ih =>
    obtain ⟨ws₁, h₁, q₁⟩ := h x (by simp)
    obtain ⟨ws₂, h₂, q₂⟩ := ih (fun y hy => h y (by simp [hy]))
    refine ⟨ws₁ ++ ws₂, ?_, ?_⟩
    · simpa using produces_append h₁ h₂
    · intro w hw
      rcases List.mem_append.mp hw with hw | hw
      · exact q₁ w hw
      · exact q₂ w hw

theorem produces_unhandled (c : GodotCasts) (iter : Nat) (v : Variant)
    (sig_iter : DBusSignatureIter)
    (h : dbus_signature_iter_get_current_type sig_iter ∉
      [DBUS_TYPE_STRING, DBUS_TYPE_INT32, DBUS_TYPE_UINT32, DBUS_TYPE_DOUBLE,
        DBUS_TYPE_BOOLEAN, DBUS_TYPE_ARRAY, DBUS_TYPE_VARIANT, 119]) :
    ∃ ws, Produces iter (append_arg c iter v sig_iter) ws :=
  ⟨[], by rw [append_arg_unhandled c iter v sig_iter h]; exact produces_warning _ _⟩

theorem produces_variant (c : GodotCasts) (iter : Nat) (v : Variant)
    (rest : List TypeDescriptor) :
    ∃ ws, Produces iter (append_arg c iter v (.Variant :: rest)) ws := by
  by_cases h : variant_inferable v = false
  · exact ⟨[], by rw [append_arg_variant_unhandled c iter v rest h]
                  exact produces_warning _ _⟩
  · cases v with
    | BOOL b =>
      exact ⟨_, by rw [append_arg_variant_BOOL]
                   exact produces_container (produces_basic _ _ _)⟩
    | INT i =>
      exact ⟨_, by rw [append_arg_variant_INT]
                   exact produces_container (produces_basic _ _ _)⟩
    | FLOAT f =>
      exact ⟨_, by rw [append_arg_variant_FLOAT]
                   exact produces_container (produces_basic _ _ _)⟩
    | STRING s =>
      exact ⟨_, by rw [append_arg_variant_STRING]
                   exact produces_container (produces_basic _ _ _)⟩
    | OBJECT o =>
      have ho : o.class_name = "DBusUInt32" := by simpa [variant_inferable] using h
      exact ⟨_, by rw [append_arg_variant_DBusUInt32 c iter o rest ho]
                   exact produces_container (produces_basic _ _ _)⟩
    | NIL => simp [variant_inferable] at h
    | DICTIONARY entries => simp [variant_inferable] at h
    | ARRAY elements => simp [variant_inferable] at h
    | OTHER tag => simp [variant_inferable] at h

theorem produces_dictionary (c : GodotCasts) (iter : Nat) (v : Variant)
    (key value : TypeDescriptor) (rest : List TypeDescriptor) :
    ∃ ws, Produces iter (append_arg c iter v (.Array (.DictEntry key value) :: rest)) ws := by
  by_cases h : v.get_type = .DICTIONARY
  · cases v <;> simp [Variant.get_type] at h
    rw [append_arg_dictionary]
    exact ⟨_, by simpa using produces_container (produces_nil (iter + 1))⟩
  · rw [append_arg_dictionary_mismatch c iter v key value rest h]
    exact ⟨[], produces_warning _ _⟩

/-- Whatever the value and the current type of the signature iterator, the
steps of `append_arg` are accepted by the builder and leave open exactly
what was open before. -/
theorem produces_append_arg_cons (c : GodotCasts) :
    ∀ (d : TypeDescriptor) (iter : Nat) (v : Variant) (rest : List TypeDescriptor),
      ∃ ws, Produces iter (append_arg c iter v (d :: rest)) ws
  | .Array e, iter, v, rest => by
    by_cases h : type_code e = DBUS_TYPE_DICT_ENTRY
    · cases e <;> simp [type_code] at h
      exact produces_dictionary c iter v _ _ rest
    · rw [append_arg_regular_array c iter v e rest h]
      obtain ⟨ws, hws, _⟩ := produces_flatMap (iter + 1)
        (fun x => append_arg c (iter + 1) x [e]) (fun _ => True) (cast_Array c v)
        (fun x _ => by
          obtain ⟨ws, hws⟩ := produces_append_arg_cons c e (iter + 1) x []
          exact ⟨ws, hws, fun _ _ => trivial⟩)
      exact ⟨_, produces_container hws⟩
  | .Variant, iter, v, rest => produces_variant c iter v rest
  | .String, iter, v, rest => ⟨_, by rw [append_arg_String]; exact produces_basic _ _ _⟩
  | .Int32, iter, v, rest => ⟨_, by rw [append_arg_Int32]; exact produces_basic _ _ _⟩
  | .UInt32, iter, v, rest => ⟨_, by rw [append_arg_UInt32]; exact produces_basic _ _ _⟩
  | .Double, iter, v, rest => ⟨_, by rw [append_arg_Double]; exact produces_basic _ _ _⟩
  | .Boolean, iter, v, rest => ⟨_, by rw [append_arg_Boolean]; exact produces_basic _ _ _⟩
  | .Byte, iter, v, rest =>
    produces_unhandled c iter v _ (by simp [dbus_signature_iter_get_current_type, type_code])
  | .Int16, iter, v, rest =>
    produces_unhandled c iter v _ (by simp [dbus_signature_iter_get_current_type, type_code])
  | .UInt16, iter, v, rest =>
    produces_unhandled c iter v _ (by simp [dbus_signature_iter_get_current_type, type_code])
  | .Int64, iter, v, rest =>
    produces_unhandled c iter v _ (by simp [dbus_signature_iter_get_current_type, type_code])
  | .UInt64, iter, v, rest =>
    produces_unhandled c iter v _ (by simp [dbus_signature_iter_get_current_type, type_code])
  | .ObjectPath, iter, v, rest =>
    produces_unhandled c iter v _ (by simp [dbus_signature_iter_get_current_type, type_code])
  | .Signature, iter, v, rest =>
    produces_unhandled c iter v _ (by simp [dbus_signature_iter_get_current_type, type_code])
  | .UnixFd, iter, v, rest =>
    produces_unhandled c iter v _ (by simp [dbus_signature_iter_get_current_type, type_code])
  | .DictEntry _ _, iter, v, rest =>
    produces_unhandled c iter v _ (by simp [dbus_signature_iter_get_current_type, type_code])
  | .Struct _, iter, v, rest =>
    produces_unhandled c iter v _ (by simp [dbus_signature_iter_get_current_type, type_code])

theorem produces_append_arg (c : GodotCasts) (iter : Nat) (v : Variant)
    (sig_iter : DBusSignatureIter) :
    ∃ ws, Produces iter (append_arg c iter v sig_iter) ws := by
  cases sig_iter with
  | nil => exact produces_unhandled c iter v _ (by simp [dbus_signature_iter_get_current_type])
  | cons d rest => exact produces_append_arg_cons c d iter v rest

/-- Claim C1. At every signature iterator position and for every value, the
steps `append_arg` makes on a builder whose current iterator is `iter` are
all accepted (each close matches the innermost open container on the same
parent and sub-iterator), and they leave the builder as it was but for
complete values appended at the current position: the open containers are,
pair by pair, the ones that were open at the start, so nothing `append_arg`
opened is left open. -/
theorem append_arg_containers_balanced (c : GodotCasts) (iter : Nat) (v : Variant)
    (sig_iter : DBusSignatureIter) (b : Builder) (h : b.current = iter) :
    ∃ ws, b.run (append_arg c iter v sig_iter) = some (b.put ws)
      ∧ (b.put ws).open_containers.map (fun f => (f.parent, f.sub))
          = b.open_containers.map (fun f => (f.parent, f.sub)) := by
  obtain ⟨ws, hws⟩ := produces_append_arg c iter v sig_iter
  refine ⟨ws, hws b h, ?_⟩
  obtain ⟨i, body, frames⟩ := b
  cases frames <;> simp [Builder.put]

theorem append_arg_containers_balanced_witness :
    (Builder.init 0).current = 0
    ∧ ∃ ws, (Builder.init 0).run
          (append_arg sample_casts 0 (.ARRAY [.INT 1, .DICTIONARY [], .INT 3])
            [.Array .Int32, .Variant])
        = some ((Builder.init 0).put ws)
      ∧ ((Builder.init 0).put ws).open_containers.map (fun f => (f.parent, f.sub))
          = (Builder.init 0).open_containers.map (fun f => (f.parent, f.sub)) :=
  ⟨rfl, append_arg_containers_balanced sample_casts 0 _ _ (Builder.init 0) rfl⟩

/-! ## Signatures built from the five handled scalars and arrays of them -/

theorem all_have_type_iff (e : TypeDescriptor) (ws : List WireValue) :
    all_have_type e ws = true ↔ ∀ w ∈ ws, has_type e w = true := by
  induction ws with
  | nil => simp [all_have_type]
  | cons w ws ih => simp [all_have_type, ih]

/-- On a supported descriptor `append_arg` writes exactly one value, of the
descriptor's type. -/
theorem produces_supported (c : GodotCasts) :
    ∀ (d : TypeDescriptor), supported d = true →
      ∀ (iter : Nat) (v : Variant) (rest : List TypeDescriptor),
        ∃ w, Produces iter (append_arg c iter v (d :: rest)) [w] ∧ has_type d w = true
  | .Array e, hd, iter, v, rest => by
    have he : supported e = true := by simpa [supported] using hd
    have h : type_code e ≠ DBUS_TYPE_DICT_ENTRY := by
      cases e <;> simp [supported] at he <;> simp [type_code]
    rw [append_arg_regular_array c iter v e rest h]
    obtain ⟨ws, hws, hty⟩ := produces_flatMap (iter + 1)
      (fun x => append_arg c (iter + 1) x [e]) (fun w => has_type e w = true)
      (cast_Array c v)
      (fun x _ => by
        obtain ⟨w, hw, hty⟩ := produces_supported c e he (iter + 1) x []
        exact ⟨[w], hw, by simpa using hty⟩)
    refine ⟨_, produces_container hws, ?_⟩
    simp [has_type, all_have_type_iff]
    exact hty
  | .String, _, iter, v, rest =>
    ⟨_, by rw [append_arg_String]; exact produces_basic _ _ _, by simp [has_type]⟩
  | .Int32, _, iter, v, rest =>
    ⟨_, by rw [append_arg_Int32]; exact produces_basic _ _ _, by simp [has_type]⟩
  | .UInt32, _, iter, v, rest =>
    ⟨_, by rw [append_arg_UInt32]; exact produces_basic _ _ _, by simp [has_type]⟩
  | .Double, _, iter, v, rest =>
    ⟨_, by rw [append_arg_Double]; exact produces_basic _ _ _, by simp [has_type]⟩
  | .Boolean, _, iter, v, rest =>
    ⟨_, by rw [append_arg_Boolean]; exact produces_basic _ _ _, by simp [has_type]⟩
  | .Variant, hd, _, _, _ => by simp [supported] at hd
  | .Byte, hd, _, _, _ => by simp [supported] at hd
  | .Int16, hd, _, _, _ => by simp [supported] at hd
  | .UInt16, hd, _, _, _ => by simp [supported] at hd
  | .Int64, hd, _, _, _ => by simp [supported] at hd
  | .UInt64, hd, _, _, _ => by simp [supported] at hd
  | .ObjectPath, hd, _, _, _ => by simp [supported] at hd
  | .Signature, hd, _, _, _ => by simp [supported] at hd
  | .UnixFd, hd, _, _, _ => by simp [supported] at hd
  | .DictEntry _ _, hd, _, _, _ => by simp [supported] at hd
  | .Struct _, hd, _, _, _ => by simp [supported] at hd

/-- A wire value that has the type of a descriptor has its signature. -/
theorem wire_signature_of_has_type (d : TypeDescriptor) (w : WireValue)
    (h : has_type d w = true) : wire_signature w = signature d := by
  cases w with
  | basic type value =>
    cases d <;> cases value <;> simp [has_type] at h <;> subst h <;>
      simp [wire_signature, signature] <;> decide
  | container type contained_signature contents =>
    cases d <;> simp [has_type] at h
    obtain ⟨h_type, h_sig, _⟩ := h
    subst h_type h_sig
    simp [wire_signature, signature]

theorem wire_signatures_of_has_type (ds : List TypeDescriptor) (ws : List WireValue)
    (h : List.Forall₂ (fun d w => has_type d w = true) ds ws) :
    wire_signatures ws = signatures ds := by
  induction h with
  | nil => simp [wire_signatures, signatures]
  | cons hd _ ih => simp [wire_signatures, signatures, ih, wire_signature_of_has_type _ _ hd]

/-- The argument loop on a supported signature with as many arguments as
descriptors is defined and writes one value per descriptor, each of its
descriptor's type. -/
theorem produces_encode_args (c : GodotCasts) (iter : Nat) :
    ∀ (signature : List TypeDescriptor) (args : List Variant),
      (∀ d ∈ signature, supported d = true) → args.length = signature.length →
      ∃ calls ws, encode_args c iter args (some signature) = some calls
        ∧ Produces iter calls ws
        ∧ List.Forall₂ (fun d w => has_type d w = true) signature ws
  | [], [], _, _ => ⟨[], [], by simp [encode_args], produces_nil iter, .nil⟩
  | [], _ :: _, _, h_len => by simp at h_len
  | _ :: _, [], _, h_len => by simp at h_len
  | d :: ds, v :: vs, h_sup, h_len => by
    obtain ⟨w, hw, hty⟩ := produces_supported c d (h_sup d (by simp)) iter v ds
    obtain ⟨calls, ws, h_calls, hws, htys⟩ := produces_encode_args c iter ds vs
      (fun d' hd' => h_sup d' (by simp [hd'])) (by simpa using h_len)
    refine ⟨append_arg c iter v (d :: ds) ++ calls, w :: ws, ?_, ?_, .cons hty htys⟩
    · simp [encode_args, dbus_signature_iter_next, h_calls]
    · simpa using produces_append hw hws

/-- Claim C10. For a signature built only from String, Int32, UInt32, Double,
Boolean and arrays of these, and as many arguments as descriptors of whatever
dynamic types, the argument loop of `send_with_reply_and_block` is defined
and fills the message body with exactly one top-level value per descriptor,
in order, each of the type of its descriptor (an array container is tagged
with its element signature and everything inside it has the element type),
and leaves no container open: the signature of the body is the requested
signature. -/
theorem encode_args_body_matches_signature (c : GodotCasts) (args : List Variant)
    (signature : List TypeDescriptor) (h_sup : ∀ d ∈ signature, supported d = true)
    (h_len : args.length = signature.length) :
    ∃ calls body,
      encode_args c 0 args (some (dbus_signature_iter_init signature)) = some calls
      ∧ (Builder.init 0).run calls = some { iter := 0, body := body, open_containers := [] }
      ∧ List.Forall₂ (fun d w => has_type d w = true) signature body
      ∧ wire_signatures body = signatures signature := by
  obtain ⟨calls, ws, h_calls, hws, hty⟩ := produces_encode_args c 0 signature args h_sup h_len
  refine ⟨calls, ws, by simpa [dbus_signature_iter_init] using h_calls, ?_, hty,
    wire_signatures_of_has_type _ _ hty⟩
  simpa [Builder.init, Builder.put] using hws (Builder.init 0) rfl

theorem encode_args_body_matches_signature_witness :
    (∀ d ∈ [TypeDescriptor.String, .Array (.Array .Int32), .Boolean], supported d = true)
    ∧ [Variant.INT 5, .ARRAY [.ARRAY [.STRING "x"], .NIL], .DICTIONARY []].length
        = [TypeDescriptor.String, .Array (.Array .Int32), .Boolean].length
    ∧ ∃ calls body,
      encode_args sample_casts 0
          [Variant.INT 5, .ARRAY [.ARRAY [.STRING "x"], .NIL], .DICTIONARY []]
          (some (dbus_signature_iter_init [.String, .Array (.Array .Int32), .Boolean]))
        = some calls
      ∧ (Builder.init 0).run calls = some { iter := 0, body := body, open_containers := [] }
      ∧ List.Forall₂ (fun d w => has_type d w = true)
          [TypeDescriptor.String, .Array (.Array .Int32), .Boolean] body
      ∧ wire_signatures body
          = signatures [TypeDescriptor.String, .Array (.Array .Int32), .Boolean] :=
  ⟨by decide, by decide,
    encode_args_body_matches_signature sample_casts _ _ (by decide) (by decide)⟩

/-! ## Arrays, dictionaries and scalars -/

/-- Claim C7. For an array descriptor whose element is not a dict-entry and
a sequence value, `append_arg` opens an array container tagged with the
element signature, writes the elements in order, each against the element
descriptor, and closes the container; for the empty sequence that is one
open immediately followed by one close. -/
theorem append_arg_array_elements (c : GodotCasts) (iter : Nat) (elements : List Variant)
    (element : TypeDescriptor) (rest : List TypeDescriptor)
    (h : ∀ key value, element ≠ .DictEntry key value) :
    append_arg c iter (.ARRAY elements) (.Array element :: rest)
        = [.dbus_message_iter_open_container iter DBUS_TYPE_ARRAY (signature element)
              (iter + 1)]
          ++ elements.flatMap (fun x => append_arg c (iter + 1) x [element])
          ++ [.dbus_message_iter_close_container iter (iter + 1)]
    ∧ append_arg c iter (.ARRAY []) (.Array element :: rest)
        = [.dbus_message_iter_open_container iter DBUS_TYPE_ARRAY (signature element)
              (iter + 1),
           .dbus_message_iter_close_container iter (iter + 1)] := by
  have h_code : type_code element ≠ DBUS_TYPE_DICT_ENTRY := by
    cases element <;> simp [type_code]
    exact h _ _ rfl
  constructor
  · rw [append_arg_regular_array c iter _ element rest h_code]
    simp [cast_Array]
  · rw [append_arg_regular_array c iter _ element rest h_code]
    simp [cast_Array]

theorem append_arg_array_elements_witness :
    (∀ key value, TypeDescriptor.Int32 ≠ .DictEntry key value)
    ∧ append_arg sample_casts 0 (.ARRAY [.INT 1, .INT 2]) [.Array .Int32]
        = [.dbus_message_iter_open_container 0 DBUS_TYPE_ARRAY (signature .Int32) (0 + 1)]
          ++ [Variant.INT 1, .INT 2].flatMap
              (fun x => append_arg sample_casts (0 + 1) x [.Int32])
          ++ [.dbus_message_iter_close_container 0 (0 + 1)]
    ∧ append_arg sample_casts 0 (.ARRAY []) [.Array .Int32]
        = [.dbus_message_iter_open_container 0 DBUS_TYPE_ARRAY (signature .Int32) (0 + 1),
           .dbus_message_iter_close_container 0 (0 + 1)] :=
  ⟨fun _ _ h => TypeDescriptor.noConfusion h,
    append_arg_array_elements sample_casts 0 [.INT 1, .INT 2] .Int32 []
      (fun _ _ h => TypeDescriptor.noConfusion h)⟩

/-- Claim C3, the code at a one-entry dictionary. For the descriptor `a{sv}`
and the mapping `{"a": 1}`, `append_arg` opens the array container tagged
`{sv}` and closes it at once: the loop over the keys writes no dict-entry,
where the claim has one entry holding the key and the value. -/
theorem dictionary_entries_not_written :
    append_arg sample_casts 0 (.DICTIONARY [(.STRING "a", .INT 1)])
        [.Array (.DictEntry .String .Variant)]
      = [.dbus_message_iter_open_container 0 DBUS_TYPE_ARRAY "{sv}" 1,
         .dbus_message_iter_close_container 0 1] := by
  rw [append_arg_dictionary]
  simp [signature]

/-- Claim C8, counterexample. For the scalar descriptor Byte and an integer
value, `append_arg` makes no builder call at all: it only pushes the
warning of its last branch. -/
theorem byte_descriptor_appends_nothing :
    append_arg sample_casts 0 (.INT 5) [.Byte]
        = [.push_warning "Invalid/unhandled argument type: "]
    ∧ (append_arg sample_casts 0 (.INT 5) [.Byte]).filter Call.is_builder_call = [] := by
  have h : append_arg sample_casts 0 (.INT 5) [.Byte]
      = [.push_warning "Invalid/unhandled argument type: "] :=
    append_arg_unhandled _ _ _ _ (by simp [dbus_signature_iter_get_current_type, type_code])
  rw [h]
  exact ⟨rfl, by decide⟩

/-- Claim C8, amended. For the scalar descriptors String, Int32, UInt32,
Double and Boolean and every value, `append_arg` appends exactly one basic
value of the descriptor's kind, holding the value cast to that kind; for
Byte, Int16, UInt16, Int64, UInt64, ObjectPath and Signature it appends
nothing and pushes the warning of its last branch. -/
theorem append_arg_scalars (c : GodotCasts) (iter : Nat) (v : Variant)
    (rest : List TypeDescriptor) :
    append_arg c iter v (.String :: rest)
        = [.dbus_message_iter_append_basic iter DBUS_TYPE_STRING
            (.string (c.ascii_data (c.ascii_data (cast_String c v))))]
    ∧ append_arg c iter v (.Int32 :: rest)
        = [.dbus_message_iter_append_basic iter DBUS_TYPE_INT32 (.int32 (cast_int32 c v))]
    ∧ append_arg c iter v (.UInt32 :: rest)
        = [.dbus_message_iter_append_basic iter DBUS_TYPE_UINT32 (.uint32 (cast_uint32 c v))]
    ∧ append_arg c iter v (.Double :: rest)
        = [.dbus_message_iter_append_basic iter DBUS_TYPE_DOUBLE (.double (cast_double c v))]
    ∧ append_arg c iter v (.Boolean :: rest)
        = [.dbus_message_iter_append_basic iter DBUS_TYPE_BOOLEAN (.boolean (booleanize c v))]
    ∧ append_arg c iter v (.Byte :: rest)
        = [.push_warning "Invalid/unhandled argument type: "]
    ∧ append_arg c iter v (.Int16 :: rest)
        = [.push_warning "Invalid/unhandled argument type: "]
    ∧ append_arg c iter v (.UInt16 :: rest)
        = [.push_warning "Invalid/unhandled argument type: "]
    ∧ append_arg c iter v (.Int64 :: rest)
        = [.push_warning "Invalid/unhandled argument type: "]
    ∧ append_arg c iter v (.UInt64 :: rest)
        = [.push_warning "Invalid/unhandled argument type: "]
    ∧ append_arg c iter v (.ObjectPath :: rest)
        = [.push_warning "Invalid/unhandled argument type: "]
    ∧ append_arg c iter v (.Signature :: rest)
        = [.push_warning "Invalid/unhandled argument type: "] := by
  refine ⟨append_arg_String c iter v rest, append_arg_Int32 c iter v rest,
    append_arg_UInt32 c iter v rest, append_arg_Double c iter v rest,
    append_arg_Boolean c iter v rest, ?_, ?_, ?_, ?_, ?_, ?_, ?_⟩ <;>
  exact append_arg_unhandled _ _ _ _
    (by simp [dbus_signature_iter_get_current_type, type_code])

/-- One turn of the argument loop at a position inside the signature. -/
theorem encode_args_cons (c : GodotCasts) (iter : Nat) (v : Variant) (args : List Variant)
    (d : TypeDescriptor) (signature : List TypeDescriptor) :
    encode_args c iter (v :: args) (some (d :: signature))
      = (encode_args c iter args (some signature)).map
          (fun calls => append_arg c iter v (d :: signature) ++ calls) := by
  simp [encode_args, dbus_signature_iter_next]

/-- With no more arguments than descriptors left, the argument loop is
defined and is one `append_arg` per argument: argument `i` is encoded at the
signature position `i` complete types in. -/
theorem encode_args_eq_flatMap (c : GodotCasts) (iter : Nat) (signature : List TypeDescriptor) :
    ∀ (args : List Variant) (k : Nat), args.length + k ≤ signature.length →
      encode_args c iter args (some (signature.drop k))
        = some ((args.enumFrom k).flatMap
            (fun p => append_arg c iter p.2 (signature.drop p.1)))
  | [], _, _ => by simp [encode_args]
  | v :: vs, k, h => by
    have hk : k < signature.length := by simp at h; omega
    have ih := encode_args_eq_flatMap c iter signature vs (k + 1) (by simp at h; omega)
    have h_drop := List.drop_eq_getElem_cons hk
    rw [h_drop, encode_args_cons, ih, ← h_drop]
    simp

/-- On a connected object and a signature libdbus accepts, once the argument
loop has produced its calls the method call is handed to the bus, its body
being the builder calls of the loop, and the returned object wraps whatever
the bus answers. -/
theorem send_of_encoded (lib : LibDBus) (c : GodotCasts) (self : DBus)
    (dbus_conn : DBusConnection) (bus_name path iface method : String)
    (args : List Variant) (signature : List TypeDescriptor) (calls : List Call)
    (h_conn : self.dbus_conn = some dbus_conn)
    (h_valid : lib.dbus_signature_validate signature = true)
    (h_calls : encode_args c 0 args (some signature) = some calls) :
    ∃ r, self.send_with_reply_and_block lib c bus_name path iface method args signature
        = some r
      ∧ r.sent = some { bus_name := bus_name, path := path, iface := iface,
                        method := method, body := calls.filter Call.is_builder_call }
      ∧ r.response
        = (lib.dbus_connection_send_with_reply_and_block dbus_conn
            { bus_name := bus_name, path := path, iface := iface, method := method,
              body := calls.filter Call.is_builder_call }).map DBusMessage.mk := by
  simp only [DBus.send_with_reply_and_block, h_conn, h_valid, dbus_signature_iter_init,
    h_calls]
  cases lib.dbus_connection_send_with_reply_and_block dbus_conn _ <;> simp

/-- Claim C2, counterexample. Two values against the three-descriptor
signature `sss` on a connected object: the call is sent with a two-value
body and the reply of the bus is returned. -/
theorem two_values_three_descriptors_sent :
    DBus.send_with_reply_and_block sample_lib sample_casts { dbus_conn := some 1 }
        "org.test.Echo" "/org/test" "org.test.Echo" "Ping"
        [.STRING "a", .STRING "b"] [.String, .String, .String]
      = some
        { response := some { message := 7 },
          sent := some
            { bus_name := "org.test.Echo", path := "/org/test", iface := "org.test.Echo",
              method := "Ping",
              body := [.dbus_message_iter_append_basic 0 DBUS_TYPE_STRING (.string "a"),
                       .dbus_message_iter_append_basic 0 DBUS_TYPE_STRING (.string "b")] },
          trace := [.dbus_message_iter_append_basic 0 DBUS_TYPE_STRING (.string "a"),
                    .dbus_message_iter_append_basic 0 DBUS_TYPE_STRING (.string "b")] } := by
  simp [DBus.send_with_reply_and_block, sample_lib, encode_args, dbus_signature_iter_init,
    dbus_signature_iter_next, append_arg_String, cast_String, sample_casts,
    Call.is_builder_call]

/-- Claim C2, amended. On a connected object, for a valid signature and an
argument list with no more arguments than the signature has descriptors,
fewer included, the encode step does not fail: the argument loop makes one
`append_arg` per argument, argument `i` against descriptor `i`, the method
call is sent with the builder calls of that loop as its body, and the reply
of the bus is returned. -/
theorem send_does_not_check_arity (lib : LibDBus) (c : GodotCasts) (self : DBus)
    (dbus_conn : DBusConnection) (bus_name path iface method : String)
    (args : List Variant) (signature : List TypeDescriptor)
    (h_conn : self.dbus_conn = some dbus_conn)
    (h_valid : lib.dbus_signature_validate signature = true)
    (h_len : args.length ≤ signature.length) :
    ∃ calls r,
      calls = args.enum.flatMap (fun p => append_arg c 0 p.2 (signature.drop p.1))
      ∧ encode_args c 0 args (some (dbus_signature_iter_init signature)) = some calls
      ∧ self.send_with_reply_and_block lib c bus_name path iface method args signature
        = some r
      ∧ r.sent = some { bus_name := bus_name, path := path, iface := iface,
                        method := method, body := calls.filter Call.is_builder_call }
      ∧ r.response
        = (lib.dbus_connection_send_with_reply_and_block dbus_conn
            { bus_name := bus_name, path := path, iface := iface, method := method,
              body := calls.filter Call.is_builder_call }).map DBusMessage.mk := by
  have h_calls : encode_args c 0 args (some signature)
      = some (args.enum.flatMap (fun p => append_arg c 0 p.2 (signature.drop p.1))) := by
    simpa [List.enum] using encode_args_eq_flatMap c 0 signature args 0 (by simpa using h_len)
  obtain ⟨r, h_r, h_sent, h_response⟩ := send_of_encoded lib c self dbus_conn bus_name
    path iface method args signature _ h_conn h_valid h_calls
  exact ⟨_, r, rfl, by simpa [dbus_signature_iter_init] using h_calls, h_r, h_sent,
    h_response⟩

theorem send_does_not_check_arity_witness :
    (DBus.mk (some 1)).dbus_conn = some 1
    ∧ sample_lib.dbus_signature_validate [.String, .String, .String] = true
    ∧ [Variant.STRING "a", .STRING "b"].length
        ≤ [TypeDescriptor.String, .String, .String].length
    ∧ ∃ calls r,
      calls = [Variant.STRING "a", .STRING "b"].enum.flatMap
          (fun p => append_arg sample_casts 0 p.2
            ([TypeDescriptor.String, .String, .String].drop p.1))
      ∧ encode_args sample_casts 0 [.STRING "a", .STRING "b"]
          (some (dbus_signature_iter_init [.String, .String, .String])) = some calls
      ∧ (DBus.mk (some 1)).send_with_reply_and_block sample_lib sample_casts
          "org.test.Echo" "/org/test" "org.test.Echo" "Ping"
          [.STRING "a", .STRING "b"] [.String, .String, .String]
        = some r
      ∧ r.sent = some { bus_name := "org.test.Echo", path := "/org/test",
                        iface := "org.test.Echo", method := "Ping",
                        body := calls.filter Call.is_builder_call }
      ∧ r.response
        = (sample_lib.dbus_connection_send_with_reply_and_block 1
            { bus_name := "org.test.Echo", path := "/org/test",
              iface := "org.test.Echo", method := "Ping",
              body := calls.filter Call.is_builder_call }).map DBusMessage.mk :=
  ⟨rfl, rfl, by decide,
    send_does_not_check_arity sample_lib sample_casts (DBus.mk (some 1)) 1
      "org.test.Echo" "/org/test" "org.test.Echo" "Ping"
      [.STRING "a", .STRING "b"] [.String, .String, .String] rfl rfl (by decide)⟩

/-- Claim C9, counterexample. A connected object whose new connection
request the bus library refuses is left without a connection. -/
theorem connect_can_disconnect :
    DBus.connect failing_lib { dbus_conn := some 1 } 0
      = ({ dbus_conn := none }, .ERR_CANT_CONNECT,
          [.push_warning "Unable to connect to bus: "]) := by
  rfl

/-- Claim C9, amended. Whatever the state of the object, `connect` asks the
bus library for a connection and stores its answer: the object is connected
with the handle the library returned and `connect` returns `OK`, or, when the
library returns none, the object is left without a connection and `connect`
returns `ERR_CANT_CONNECT`. On a connected object the state is kept exactly
when the library hands out the same handle again. -/
theorem connect_stores_library_answer (lib : LibDBus) (self : DBus) (bus_type : Int) :
    (self.connect lib bus_type).1.dbus_conn = lib.dbus_bus_get bus_type
    ∧ ((self.connect lib bus_type).2.1 = .OK ↔ (lib.dbus_bus_get bus_type).isSome = true)
    ∧ ((self.connect lib bus_type).2.1 = .ERR_CANT_CONNECT
        ↔ lib.dbus_bus_get bus_type = none)
    ∧ ((self.connect lib bus_type).1 = self ↔ lib.dbus_bus_get bus_type = self.dbus_conn) := by
  obtain ⟨conn⟩ := self
  simp only [DBus.connect]
  cases h : lib.dbus_bus_get bus_type <;> simp [eq_comm]

end DBusExt
